import Mathlib

/-!
Shallow embedding of the uptime-monitor's history-consolidation and
time-bucketed aggregation logic (src/scripts/monitor.py and
src/scripts/archive.py), together with theorems settling the spec claims.

Time is modelled as `Int` minutes on the US/Eastern wall-clock timeline:
an aware timestamp is identified with its Eastern wall-clock minute count,
so `EASTERN_TZ.localize` on a naive wall-clock reading is the identity on
the carrier (offsets are absorbed by the encoding).  The windows used in
concrete counterexamples avoid DST transitions, where this linear model
and the pandas wall-clock behaviour agree.
-/

namespace Monitor

/-- Check outcome stored by the monitor: the strings "Up" / "Down"
(monitor.py writes no other status values). -/
inductive Status where
  | Up
  | Down
deriving DecidableEq, Repr

/-- Result of `datetime.fromisoformat` on a stored timestamp string: an
aware instant, or a naive wall-clock reading (`tzinfo is None`). -/
inductive PyTs where
  | aware (t : Int)
  | naive (w : Int)
deriving DecidableEq, Repr

/-- One persisted observation record `{resource, status, timestamp}`.
`timestamp = none` models a record whose timestamp field is missing or
not ISO-parseable, on which `entry['timestamp']` / `fromisoformat` raises. -/
structure Entry where
  resource : String
  status : Status
  timestamp : Option PyTs
deriving DecidableEq, Repr

/-- `timedelta(days=1)` in minutes. -/
def minutesPerDay : Int := 1440

/-- `HISTORY_DAYS = 30` (monitor.py line 24, archive.py line 9). -/
def HISTORY_DAYS : Int := 30

/-- `datetime.fromisoformat(entry['timestamp'])`: raises (ValueError /
KeyError) when the field is missing or unparseable. -/
def fromisoformat : Option PyTs → Except String PyTs
  | none => Except.error "ValueError"
  | some ts => Except.ok ts

/-- Python `>` between a parsed timestamp and the aware `cutoff_date`:
comparing a naive datetime against an aware one raises TypeError. -/
def pyGtAware (ts : PyTs) (cutoff : Int) : Except String Bool :=
  match ts with
  | PyTs.aware t => Except.ok (decide (cutoff < t))
  | PyTs.naive _ => Except.error "TypeError"

/-- The list comprehension of `save_and_prune_data` (monitor.py lines
68-71): keep each entry whose parsed timestamp compares `> cutoff_date`,
raising at the first entry whose timestamp fails to parse or compare. -/
def pruneFilter (cutoff : Int) : List Entry → Except String (List Entry)
  | [] => Except.ok []
  | e :: rest =>
    match fromisoformat e.timestamp with
    | Except.error msg => Except.error msg
    | Except.ok ts =>
      match pyGtAware ts cutoff with
      | Except.error msg => Except.error msg
      | Except.ok b =>
        match pruneFilter cutoff rest with
        | Except.error msg => Except.error msg
        | Except.ok tail => Except.ok (if b then e :: tail else tail)

/-- `save_and_prune_data(data, file_path, days_to_keep)` (monitor.py lines
65-79), with `now = datetime.now(EASTERN_TZ)` passed explicitly:
`cutoff_date = now - timedelta(days=days_to_keep)`, then the prune filter. -/
def save_and_prune_data (data : List Entry) (days_to_keep now : Int) :
    Except String (List Entry) :=
  pruneFilter (now - days_to_keep * minutesPerDay) data

/-- The spec's `merge_and_prune(existing, new_observations, retention_window,
now)`: `main` concatenates `historical_data + current_results` (monitor.py
line 115) and calls `save_and_prune_data` on the result (line 116). -/
def merge_and_prune (existing news : List Entry) (retention_days now : Int) :
    Except String (List Entry) :=
  save_and_prune_data (existing ++ news) retention_days now

/-- Boolean form of the condition under which `save_and_prune_data` keeps
an entry (assuming the comparison does not raise). -/
def keepEntry (cutoff : Int) (e : Entry) : Bool :=
  match e.timestamp with
  | some (PyTs.aware t) => decide (cutoff < t)
  | some (PyTs.naive _) => false
  | none => false

/-- State of the persisted results file as seen by `load_historical_data`
(monitor.py lines 54-63). -/
inductive FileState where
  | missing
  | unreadable
  | badJson
  | content (entries : List Entry)
deriving DecidableEq, Repr

/-- `load_historical_data` (monitor.py lines 54-63): a missing file, an
IOError, or a JSON decode error all degrade to the empty history; a
readable well-formed JSON file yields its entries unchanged. -/
def load_historical_data : FileState → List Entry
  | FileState.missing => []
  | FileState.unreadable => []
  | FileState.badJson => []
  | FileState.content entries => entries

/-- `EASTERN_TZ.localize` on a naive wall-clock reading (archive.py line
48).  In the Eastern wall-clock-minute encoding of instants this is the
identity on the carrier. -/
def EASTERN_TZ_localize (w : Int) : Int := w

/-- The instant archive.py compares: the parsed timestamp, localized to
US/Eastern first when naive (archive.py lines 45-48). -/
def localizeEntryTs : PyTs → Int
  | PyTs.aware t => t
  | PyTs.naive w => EASTERN_TZ_localize w

/-- Boolean form of archive.py's "old record" test (line 50), assuming a
parseable timestamp. -/
def entryOld (cutoff : Int) (e : Entry) : Bool :=
  match e.timestamp with
  | some ts => decide (localizeEntryTs ts < cutoff)
  | none => false

/-- The partition loop of `archive_old_data` (archive.py lines 41-53):
each entry is appended to `old_results` when its localized timestamp is
`< cutoff_date`, and to `new_results` otherwise; an unparseable timestamp
raises. -/
def archiveSplit (cutoff : Int) : List Entry → Except String (List Entry × List Entry)
  | [] => Except.ok ([], [])
  | e :: rest =>
    match fromisoformat e.timestamp with
    | Except.error msg => Except.error msg
    | Except.ok ts =>
      match archiveSplit cutoff rest with
      | Except.error msg => Except.error msg
      | Except.ok (old, recent) =>
        if localizeEntryTs ts < cutoff then Except.ok (e :: old, recent)
        else Except.ok (old, e :: recent)

/-- `archive_old_data`'s data transformation (archive.py lines 39-72):
split the results at `cutoff_date = now - timedelta(days=HISTORY_DAYS)`,
append the old records to the existing archive, keep the rest as the new
results file. -/
def archive_old_data (archive_data all_data : List Entry) (now : Int) :
    Except String (List Entry × List Entry) :=
  match archiveSplit (now - HISTORY_DAYS * minutesPerDay) all_data with
  | Except.error msg => Except.error msg
  | Except.ok (old, recent) => Except.ok (archive_data ++ old, recent)

/-! ## Aggregator: `generate_chart` (monitor.py lines 122-227)

`generate_chart` builds, for each target with data, a 24x30 grid of cells
indexed by (calendar date, hour of day).  A row of the monitor DataFrame is
an observation with a parseable timestamp, already converted to US/Eastern
(line 133); `date`/`hour` are its Eastern calendar date and hour (lines
134-135); `status_val` maps Up to 2 and Down to 1 (lines 136-138). -/

/-- One DataFrame row for a parseable observation: resource, status, and
the timestamp in Eastern wall-clock minutes. -/
structure ChartRow where
  resource : String
  status : Status
  ts : Int
deriving DecidableEq, Repr

/-- `status_map = {'Up': 2, 'Down': 1}` (monitor.py line 137). -/
def statusVal : Status → Int
  | Status.Up => 2
  | Status.Down => 1

/-- `.dt.date`: the Eastern calendar date (days since epoch) of an instant. -/
def dateOf (t : Int) : Int := t / 1440

/-- `.dt.hour`: the Eastern hour of day (0-23) of an instant. -/
def hourOf (t : Int) : Int := t % 1440 / 60

/-- Whether a row's observation lands in the grid cell of date `d`,
hour `h` (the merge key of monitor.py line 167). -/
def inBucket (r : ChartRow) (d h : Int) : Bool :=
  decide (dateOf r.ts = d) && decide (hourOf r.ts = h)

/-- Start instant of the cell of date `d`, hour `h` — the scaffold
timestamp of that cell (monitor.py lines 158-161). -/
def bucketStart (d h : Int) : Int := d * 1440 + h * 60

/-- `resource_df = df[df['resource'] == resource_url]` (monitor.py
line 142). -/
def resourceRows (all_data : List ChartRow) (url : String) : List ChartRow :=
  all_data.filter (fun r => r.resource = url)

/-- Fold step realizing `sort_values('timestamp') +
drop_duplicates(..., keep='last')`: among rows of one cell, a later
timestamp wins, and on equal timestamps the later row in input order wins
(the sort is stable, and `keep='last'` keeps the last sorted row). -/
def lastStep (acc : Option ChartRow) (r : ChartRow) : Option ChartRow :=
  match acc with
  | none => some r
  | some b => if b.ts ≤ r.ts then some r else some b

/-- The row `hourly_status` retains for the cell (d, h) (monitor.py
line 164): the last row, in timestamp order, falling in that cell. -/
def lastObs (rows : List ChartRow) (d h : Int) : Option ChartRow :=
  (rows.filter (fun r => inBucket r d h)).foldl lastStep none

/-- Value of the grid cell (d, h) after the scaffold merge and the
past-fill (monitor.py lines 166-171): the last observation's status value
when the cell has one; otherwise the sentinel 0 ("Missing") when the
cell's scaffold timestamp is `< now`, and NaN ("Future", here `none`)
otherwise. -/
def bucketCell (rows : List ChartRow) (now d h : Int) : Option Int :=
  match lastObs rows d h with
  | some r => some (statusVal r.status)
  | none => if bucketStart d h < now then some 0 else none

/-- The cell keys of the scaffold/reindexed grid, in chronological order:
`end_date = now.date()`, `start_date = end_date - 29 days` (monitor.py
lines 151-152), 30 dates times 24 hours (lines 158, 177-178). -/
def scaffoldKeys (now : Int) : List (Int × Int) :=
  (List.range 720).map
    (fun i => (dateOf now - 29 + Int.ofNat (i / 24), Int.ofNat (i % 24)))

/-- The per-target outcome of `generate_chart`: `none` when no chart is
generated — `if not all_data: return` (line 124) or
`if resource_df.empty: continue` (lines 146-148) — otherwise the full
grid of 720 cells. -/
def chartGrid (all_data : List ChartRow) (url : String) (now : Int) :
    Option (List ((Int × Int) × Option Int)) :=
  if all_data = [] then none
  else
    if resourceRows all_data url = [] then none
    else some ((scaffoldKeys now).map
      (fun k => (k, bucketCell (resourceRows all_data url) now k.1 k.2)))

/-- An entry whose timestamp parses to an aware instant (the shape
monitor.py itself writes: `datetime.now(EASTERN_TZ).isoformat()`). -/
def isAware (e : Entry) : Bool :=
  match e.timestamp with
  | some (PyTs.aware _) => true
  | some (PyTs.naive _) => false
  | none => false

/-- A concrete well-formed entry used to instantiate theorems. -/
def eAware1 : Entry := ⟨"a", Status.Up, some (PyTs.aware 1)⟩

/-- A concrete entry with a naive (timezone-less) timestamp. -/
def eNaive0 : Entry := ⟨"a", Status.Up, some (PyTs.naive 0)⟩

/-- A concrete entry whose timestamp field does not parse. -/
def eBadTs : Entry := ⟨"a", Status.Up, none⟩

/-! ## Helper lemmas -/

theorem isAware_iff (e : Entry) :
    isAware e = true ↔ ∃ t, e.timestamp = some (PyTs.aware t) := by
  unfold isAware
  cases hts : e.timestamp with
  | none => simp
  | some ts => cases ts <;> simp

/-- On histories whose timestamps all parse to aware instants, the prune
comprehension never raises and is an ordinary filter. -/
theorem pruneFilter_eq_filter (cutoff : Int) (l : List Entry)
    (h : ∀ e ∈ l, isAware e = true) :
    pruneFilter cutoff l = Except.ok (l.filter (keepEntry cutoff)) := by
  induction l with
  | nil => rfl
  | cons e rest ih =>
    obtain ⟨t, ht⟩ := (isAware_iff e).mp (h e (List.mem_cons_self _ _))
    have hrest := ih (fun e' he' => h e' (List.mem_cons_of_mem _ he'))
    simp only [pruneFilter, ht, fromisoformat, pyGtAware, hrest, List.filter_cons, keepEntry]

/-- The prune comprehension is idempotent: re-filtering a successful
output returns it unchanged. -/
theorem pruneFilter_idem (cutoff : Int) (l : List Entry) (P : List Entry)
    (h : pruneFilter cutoff l = Except.ok P) : pruneFilter cutoff P = Except.ok P := by
  induction l generalizing P with
  | nil =>
    simp only [pruneFilter] at h
    cases h
    rfl
  | cons e rest ih =>
    simp only [pruneFilter] at h
    cases hf : fromisoformat e.timestamp with
    | error msg => rw [hf] at h; exact absurd h (by simp)
    | ok ts =>
      rw [hf] at h
      cases ts with
      | naive w => simp only [pyGtAware] at h; exact absurd h (by simp)
      | aware t =>
        simp only [pyGtAware] at h
        cases hr : pruneFilter cutoff rest with
        | error msg => rw [hr] at h; exact absurd h (by simp)
        | ok tail =>
          rw [hr] at h
          have htail := ih tail hr
          cases hb : decide (cutoff < t) with
          | true =>
            rw [hb] at h
            simp only [if_true, Except.ok.injEq] at h
            subst h
            simp [pruneFilter, hf, pyGtAware, htail, hb]
          | false =>
            rw [hb] at h
            simp only [Bool.false_eq_true, if_false, Except.ok.injEq] at h
            subst h
            exact htail

/-- On results whose timestamps all parse, the archive loop never raises
and is the filter partition by the localized-before-cutoff test. -/
theorem archiveSplit_eq_filter (cutoff : Int) (l : List Entry)
    (h : ∀ e ∈ l, e.timestamp.isSome = true) :
    archiveSplit cutoff l =
      Except.ok (l.filter (entryOld cutoff), l.filter (fun e => ! entryOld cutoff e)) := by
  induction l with
  | nil => rfl
  | cons e rest ih =>
    obtain ⟨ts, hts⟩ := Option.isSome_iff_exists.mp (h e (List.mem_cons_self _ _))
    have hrest := ih (fun e' he' => h e' (List.mem_cons_of_mem _ he'))
    simp only [archiveSplit, hts, fromisoformat, hrest, List.filter_cons, entryOld]
    by_cases hc : localizeEntryTs ts < cutoff <;> simp [hc]

theorem lastObs_of_not_inBucket (rows : List ChartRow) (d h : Int)
    (hno : ∀ r ∈ rows, inBucket r d h = false) : lastObs rows d h = none := by
  unfold lastObs
  have hnil : rows.filter (fun r => inBucket r d h) = [] := by
    rw [List.filter_eq_nil_iff]
    intro r hr
    simp [hno r hr]
  rw [hnil]
  rfl

/-- Once the fold over a cell's rows holds the strictly latest row, it
keeps it. -/
theorem foldl_lastStep_keep (l : List ChartRow) (r : ChartRow)
    (hmax : ∀ x ∈ l, x = r ∨ x.ts < r.ts) :
    l.foldl lastStep (some r) = some r := by
  induction l with
  | nil => rfl
  | cons x rest ih =>
    have hx := hmax x (List.mem_cons_self _ _)
    have hrest := ih (fun y hy => hmax y (List.mem_cons_of_mem _ hy))
    rcases hx with hx | hx
    · subst hx
      simp only [List.foldl_cons, lastStep, le_refl, if_true]
      exact hrest
    · simp only [List.foldl_cons, lastStep, if_neg (not_le.mpr hx)]
      exact hrest

/-- The fold realizing `drop_duplicates(keep='last')` returns the strictly
latest row of the cell, from any admissible accumulator. -/
theorem foldl_lastStep_latest (l : List ChartRow) (r : ChartRow) (acc : Option ChartRow)
    (hmem : r ∈ l) (hmax : ∀ x ∈ l, x = r ∨ x.ts < r.ts)
    (hacc : acc = none ∨ acc = some r ∨ ∃ b, acc = some b ∧ b.ts < r.ts) :
    l.foldl lastStep acc = some r := by
  induction l generalizing acc with
  | nil => cases hmem
  | cons x rest ih =>
    have hrest : ∀ y ∈ rest, y = r ∨ y.ts < r.ts :=
      fun y hy => hmax y (List.mem_cons_of_mem _ hy)
    rcases hmax x (List.mem_cons_self _ _) with hx | hx
    · subst hx
      have hstep : lastStep acc x = some x := by
        rcases hacc with hacc | hacc | ⟨b, hacc, hb⟩
        · rw [hacc]; rfl
        · rw [hacc]; simp [lastStep]
        · rw [hacc]; simp [lastStep, le_of_lt hb]
      rw [List.foldl_cons, hstep]
      exact foldl_lastStep_keep rest x hrest
    · have hmem' : r ∈ rest := by
        rcases List.mem_cons.mp hmem with hrx | hrx
        · subst hrx; exact absurd hx (lt_irrefl _)
        · exact hrx
      rw [List.foldl_cons]
      refine ih (lastStep acc x) hmem' hrest ?_
      rcases hacc with hacc | hacc | ⟨b, hacc, hb⟩
      · right; right; exact ⟨x, by rw [hacc]; rfl, hx⟩
      · right; left; rw [hacc]; simp [lastStep, not_le.mpr hx]
      · rw [hacc]
        by_cases hbx : b.ts ≤ x.ts
        · right; right; exact ⟨x, by simp [lastStep, hbx], hx⟩
        · right; right; exact ⟨b, by simp [lastStep, hbx], hb⟩

/-- `hourly_status` keeps, for a cell, the row with the strictly greatest
timestamp among the rows landing in that cell. -/
theorem lastObs_latest (rows : List ChartRow) (d h : Int) (r : ChartRow)
    (hmem : r ∈ rows) (hb : inBucket r d h = true)
    (hmax : ∀ x ∈ rows, inBucket x d h = true → x = r ∨ x.ts < r.ts) :
    lastObs rows d h = some r := by
  unfold lastObs
  apply foldl_lastStep_latest _ r none
  · exact List.mem_filter.mpr ⟨hmem, hb⟩
  · intro x hx
    obtain ⟨hx1, hx2⟩ := List.mem_filter.mp hx
    exact hmax x hx1 hx2
  · left; rfl

/-- An observation landing in a cell is no earlier than the cell's
scaffold (start) timestamp. -/
theorem bucketStart_le_of_inBucket (r : ChartRow) (d h : Int)
    (hb : inBucket r d h = true) : bucketStart d h ≤ r.ts := by
  unfold inBucket at hb
  simp only [Bool.and_eq_true, decide_eq_true_eq] at hb
  obtain ⟨hd, hh⟩ := hb
  unfold dateOf at hd
  unfold hourOf at hh
  unfold bucketStart
  omega

/-! ## Claim theorems -/

/-- C2 (counterexample): an observation whose timestamp equals
`now - retention_window` exactly satisfies the claim's retention test
`timestamp >= now - retention_window`, yet `merge_and_prune` drops it:
the code keeps only entries with timestamp strictly greater than the
cutoff (monitor.py line 70 uses `>`). -/
theorem c2_boundary_entry_dropped :
    (0 : Int) - HISTORY_DAYS * minutesPerDay ≤ -43200 ∧
    merge_and_prune [⟨"a", Status.Up, some (PyTs.aware (-43200))⟩] [] HISTORY_DAYS 0 =
      Except.ok [] := ⟨by decide, by rfl⟩

/-- C2 (amended): for histories and new observations whose timestamps are
all aware, `merge_and_prune` returns exactly the concatenated entries
whose timestamp is STRICTLY greater than `now - retention_window`; an
entry with timestamp equal to the cutoff is dropped, and every retained
entry satisfies `timestamp > now - retention_window`. -/
theorem merge_and_prune_retention (H N : List Entry) (w now : Int)
    (hp : ∀ e ∈ H ++ N, isAware e = true) :
    merge_and_prune H N w now =
      Except.ok ((H ++ N).filter (keepEntry (now - w * minutesPerDay))) ∧
    (∀ e t, e.timestamp = some (PyTs.aware t) →
      (e ∈ (H ++ N).filter (keepEntry (now - w * minutesPerDay)) ↔
        e ∈ H ++ N ∧ now - w * minutesPerDay < t)) ∧
    (∀ e ∈ (H ++ N).filter (keepEntry (now - w * minutesPerDay)),
      ∃ t, e.timestamp = some (PyTs.aware t) ∧ now - w * minutesPerDay < t) := by
  refine ⟨pruneFilter_eq_filter _ _ hp, ?_, ?_⟩
  · intro e t ht
    rw [List.mem_filter]
    constructor
    · rintro ⟨hmem, hkeep⟩
      refine ⟨hmem, ?_⟩
      simp only [keepEntry, ht, decide_eq_true_eq] at hkeep
      exact hkeep
    · rintro ⟨hmem, hlt⟩
      exact ⟨hmem, by simp [keepEntry, ht, hlt]⟩
  · intro e he
    obtain ⟨hmem, hkeep⟩ := List.mem_filter.mp he
    obtain ⟨t, ht⟩ := (isAware_iff e).mp (hp e hmem)
    refine ⟨t, ht, ?_⟩
    simp only [keepEntry, ht, decide_eq_true_eq] at hkeep
    exact hkeep

/-- C2 (witness): the amended theorem applied to the singleton history
`[eAware1]` with `now = 0`. -/
theorem merge_and_prune_retention_witness :
    merge_and_prune [eAware1] [] HISTORY_DAYS 0 =
      Except.ok (([eAware1] ++ []).filter (keepEntry (0 - HISTORY_DAYS * minutesPerDay))) :=
  (merge_and_prune_retention [eAware1] [] HISTORY_DAYS 0 (by decide)).1

/-- C5: `merge_and_prune` is idempotent — merging an already-pruned
history with an empty new-observation list returns it unchanged. -/
theorem merge_and_prune_idempotent (H P : List Entry) (w now : Int)
    (h : merge_and_prune H [] w now = Except.ok P) :
    merge_and_prune P [] w now = Except.ok P := by
  unfold merge_and_prune save_and_prune_data at h ⊢
  rw [List.append_nil] at h ⊢
  exact pruneFilter_idem _ _ _ h

/-- C5 (witness): applying the idempotence theorem at the concrete
already-pruned history `[eAware1]`. -/
theorem merge_and_prune_idempotent_witness :
    merge_and_prune [eAware1] [] HISTORY_DAYS 0 = Except.ok [eAware1] :=
  merge_and_prune_idempotent [eAware1] [eAware1] HISTORY_DAYS 0 (by rfl)

/-- C6 (counterexample): a persisted store that is valid JSON but whose
single entry has a missing/unparseable timestamp field is loaded as-is by
`load_historical_data` (no error there), and the subsequent merge-and-prune
step raises (`datetime.fromisoformat(entry['timestamp'])`, monitor.py line
70) instead of degrading to an empty history. -/
theorem c6_bad_timestamp_aborts :
    load_historical_data (FileState.content [eBadTs]) = [eBadTs] ∧
    merge_and_prune (load_historical_data (FileState.content [eBadTs])) [] HISTORY_DAYS 0 =
      Except.error "ValueError" := ⟨by rfl, by rfl⟩

/-- C6 (amended): a persisted store that is missing, unreadable, or
malformed as JSON degrades to the empty history and the merge-and-prune
step completes on the run's own (aware-timestamped) observations; but a
store that is valid JSON with entries whose timestamp fields are missing
or unparseable is NOT recovered from — pruning raises on such entries. -/
theorem load_and_prune_recovers (fs : FileState) (N : List Entry) (w now : Int)
    (hfs : fs = FileState.missing ∨ fs = FileState.unreadable ∨ fs = FileState.badJson)
    (hN : ∀ e ∈ N, isAware e = true) :
    load_historical_data fs = [] ∧
    merge_and_prune (load_historical_data fs) N w now =
      Except.ok (N.filter (keepEntry (now - w * minutesPerDay))) := by
  have hload : load_historical_data fs = [] := by
    rcases hfs with h | h | h <;> subst h <;> rfl
  refine ⟨hload, ?_⟩
  rw [hload]
  unfold merge_and_prune save_and_prune_data
  rw [List.nil_append]
  exact pruneFilter_eq_filter _ N hN

/-- C6 (witness): the recovery theorem applied to a missing store and the
fresh observation list `[eAware1]`. -/
theorem load_and_prune_recovers_witness :
    load_historical_data FileState.missing = [] ∧
    merge_and_prune (load_historical_data FileState.missing) [eAware1] HISTORY_DAYS 0 =
      Except.ok ([eAware1].filter (keepEntry (0 - HISTORY_DAYS * minutesPerDay))) :=
  load_and_prune_recovers FileState.missing [eAware1] HISTORY_DAYS 0 (Or.inl rfl) (by decide)

/-- C7: at a naive-timestamped entry, monitor.py's pruning comparison
(line 70) does NOT localize and raises TypeError (naive vs aware
comparison), while archive.py (lines 45-53) localizes the same entry to
US/Eastern first and partitions it without raising — the claim holds for
the archiver but is violated by `merge_and_prune`. -/
theorem c7_naive_timestamp_divergence :
    merge_and_prune [eNaive0] [] HISTORY_DAYS 100000 = Except.error "TypeError" ∧
    archiveSplit (100000 - HISTORY_DAYS * minutesPerDay) [eNaive0] =
      Except.ok ([eNaive0], []) ∧
    localizeEntryTs (PyTs.naive 0) = EASTERN_TZ_localize 0 :=
  ⟨by rfl, by rfl, by rfl⟩

/-- C10: on results whose timestamps all parse, `archive_old_data`
partitions the input exactly: the records appended to the archive are
those whose localized timestamp is strictly before the cutoff, the
retained results are the rest, the two outputs together are a permutation
of the input (nothing lost or duplicated), and each output preserves the
input's relative order (is a sublist of it). -/
theorem archive_old_data_partition (A l : List Entry) (now : Int)
    (h : ∀ e ∈ l, e.timestamp.isSome = true) :
    archive_old_data A l now =
      Except.ok (A ++ l.filter (entryOld (now - HISTORY_DAYS * minutesPerDay)),
        l.filter (fun e => ! entryOld (now - HISTORY_DAYS * minutesPerDay) e)) ∧
    (l.filter (entryOld (now - HISTORY_DAYS * minutesPerDay)) ++
      l.filter (fun e => ! entryOld (now - HISTORY_DAYS * minutesPerDay) e)).Perm l ∧
    (l.filter (entryOld (now - HISTORY_DAYS * minutesPerDay))).Sublist l ∧
    (l.filter (fun e => ! entryOld (now - HISTORY_DAYS * minutesPerDay) e)).Sublist l ∧
    (∀ e ∈ l.filter (entryOld (now - HISTORY_DAYS * minutesPerDay)),
      ∃ ts, e.timestamp = some ts ∧
        localizeEntryTs ts < now - HISTORY_DAYS * minutesPerDay) ∧
    (∀ e ∈ l.filter (fun e => ! entryOld (now - HISTORY_DAYS * minutesPerDay) e),
      ∃ ts, e.timestamp = some ts ∧
        ¬ localizeEntryTs ts < now - HISTORY_DAYS * minutesPerDay) := by
  refine ⟨?_, List.filter_append_perm _ l, List.filter_sublist l, List.filter_sublist l,
    ?_, ?_⟩
  · unfold archive_old_data
    rw [archiveSplit_eq_filter _ l h]
  · intro e he
    obtain ⟨hmem, hkeep⟩ := List.mem_filter.mp he
    obtain ⟨ts, hts⟩ := Option.isSome_iff_exists.mp (h e hmem)
    refine ⟨ts, hts, ?_⟩
    simp only [entryOld, hts, decide_eq_true_eq] at hkeep
    exact hkeep
  · intro e he
    obtain ⟨hmem, hkeep⟩ := List.mem_filter.mp he
    obtain ⟨ts, hts⟩ := Option.isSome_iff_exists.mp (h e hmem)
    refine ⟨ts, hts, ?_⟩
    simp only [entryOld, hts, Bool.not_eq_true', decide_eq_false_iff_not] at hkeep
    exact hkeep

/-- C10 (witness): the partition theorem applied to a concrete two-entry
results file (one old naive record, one recent aware record) at
`now = 100000`. -/
theorem archive_old_data_partition_witness :
    archive_old_data [] [eNaive0, eAware1, ⟨"b", Status.Down, some (PyTs.aware 99999)⟩]
        100000 =
      Except.ok ([] ++ [eNaive0, eAware1,
          ⟨"b", Status.Down, some (PyTs.aware 99999)⟩].filter
            (entryOld (100000 - HISTORY_DAYS * minutesPerDay)),
        [eNaive0, eAware1, ⟨"b", Status.Down, some (PyTs.aware 99999)⟩].filter
          (fun e => ! entryOld (100000 - HISTORY_DAYS * minutesPerDay) e)) :=
  (archive_old_data_partition [] [eNaive0, eAware1,
    ⟨"b", Status.Down, some (PyTs.aware 99999)⟩] 100000 (by decide)).1

/-- C1 (counterexample): with Up at minute 90 (bucket hour 1) and Down at
minute 210 (bucket hour 3) and nothing in hour 2, the past bucket (day 0,
hour 2) resolves to the no-data sentinel 0, NOT to the last preceding
value Up (2): monitor.py line 171 fills every past empty bucket with 0,
it never forward-fills. -/
theorem c1_no_forward_fill :
    bucketCell (resourceRows [⟨"a", Status.Up, 90⟩, ⟨"a", Status.Down, 210⟩] "a") 600 0 2 =
      some 0 ∧
    (some 0 : Option Int) ≠ some (statusVal Status.Up) := ⟨by rfl, by decide⟩

/-- C1 (amended): every past bucket (start `< now`) containing no
observation resolves to the no-data sentinel 0 ("Missing"), regardless of
what any earlier bucket holds — the code never forward-fills. -/
theorem missing_past_bucket_sentinel (rows : List ChartRow) (now d h : Int)
    (hpast : bucketStart d h < now)
    (hempty : ∀ r ∈ rows, inBucket r d h = false) :
    bucketCell rows now d h = some 0 := by
  unfold bucketCell
  rw [lastObs_of_not_inBucket rows d h hempty]
  simp [hpast]

/-- C1 (witness): the sentinel theorem applied to the concrete history of
the counterexample scenario (Up in hour 1, empty hour 2). -/
theorem missing_past_bucket_sentinel_witness :
    bucketCell [⟨"a", Status.Up, 90⟩, ⟨"a", Status.Down, 210⟩] 600 0 2 = some 0 :=
  missing_past_bucket_sentinel [⟨"a", Status.Up, 90⟩, ⟨"a", Status.Down, 210⟩] 600 0 2
    (by decide) (by decide)

set_option maxRecDepth 40000 in
/-- C3 (counterexample): at `now` = minute 28656720 (noon, day 19871+29),
the grid exists and has exactly 720 buckets, but it is anchored to
calendar days, not to `[now - retention_window, now]`: its first bucket
starts at midnight 29 days back (minute 28614240), which differs from
`now - 30 days` (minute 28613520), and its last bucket (hour 23 of the
current day) ends after `now` and is still Future. -/
theorem c3_not_anchored_to_now :
    (chartGrid [⟨"a", Status.Up, 28656720⟩] "a" 28656720).map List.length = some 720 ∧
    (chartGrid [⟨"a", Status.Up, 28656720⟩] "a" 28656720).map List.head? =
      some (some ((19871, 0), some 0)) ∧
    bucketStart 19871 0 ≠ 28656720 - HISTORY_DAYS * minutesPerDay ∧
    (chartGrid [⟨"a", Status.Up, 28656720⟩] "a" 28656720).map List.getLast? =
      some (some ((19900, 23), none)) ∧
    28656720 < bucketStart 19900 23 + 60 :=
  ⟨by rfl, by rfl, by decide, by rfl, by decide⟩

/-- C3 (amended): for any history with at least one row for the target,
the grid has exactly 720 = ceil(30 days / 1 hour) buckets whose keys are
`scaffoldKeys now` — a function of `now` alone, independent of the data —
spanning the 30 calendar dates `[date(now) - 29, date(now)]` times hours
0-23 (i.e. anchored to calendar-day boundaries, not to
`[now - retention_window, now]`). -/
theorem chartGrid_bucket_count (data : List ChartRow) (url : String) (now : Int)
    (hne : data ≠ []) (hres : resourceRows data url ≠ []) :
    ∃ g, chartGrid data url now = some g ∧
      g.length = 720 ∧ g.map Prod.fst = scaffoldKeys now ∧
      ∀ k ∈ scaffoldKeys now,
        dateOf now - 29 ≤ k.1 ∧ k.1 ≤ dateOf now ∧ 0 ≤ k.2 ∧ k.2 ≤ 23 := by
  unfold chartGrid
  rw [if_neg hne, if_neg hres]
  refine ⟨_, rfl, ?_, ?_, ?_⟩
  · simp [scaffoldKeys]
  · simp [scaffoldKeys, List.map_map, Function.comp]
  · intro k hk
    simp only [scaffoldKeys, List.mem_map, List.mem_range] at hk
    obtain ⟨i, hi, hk⟩ := hk
    subst hk
    refine ⟨?_, ?_, ?_, ?_⟩ <;> simp <;> omega

/-- C3 (witness): the bucket-count theorem applied at the concrete
single-row history and `now` of the counterexample. -/
theorem chartGrid_bucket_count_witness :
    ∃ g, chartGrid [⟨"a", Status.Up, 28656720⟩] "a" 28656720 = some g ∧
      g.length = 720 ∧ g.map Prod.fst = scaffoldKeys 28656720 ∧
      ∀ k ∈ scaffoldKeys 28656720,
        dateOf 28656720 - 29 ≤ k.1 ∧ k.1 ≤ dateOf 28656720 ∧ 0 ≤ k.2 ∧ k.2 ≤ 23 :=
  chartGrid_bucket_count [⟨"a", Status.Up, 28656720⟩] "a" 28656720
    (by decide) (by decide)

/-- C4 (counterexample): with `now` = minute 720, an observation at minute
840 (two hours in the future) lands in the bucket (day 0, hour 14), whose
start (minute 840) is after `now` — yet that future bucket is assigned the
observation's value 2 instead of staying a distinct Future cell: the merge
of monitor.py line 167 fills any bucket an observation maps to, and line
171 only controls NaN cells. -/
theorem c4_future_observation_fills_bucket :
    (720 : Int) < bucketStart 0 14 ∧
    bucketCell (resourceRows [⟨"a", Status.Up, 840⟩] "a") 720 0 14 = some 2 :=
  ⟨by decide, by rfl⟩

/-- C4 (amended): a bucket whose start is after `now` stays Future (NaN)
as long as every observation's timestamp is `<= now`; only an observation
whose own timestamp lies in the future can give a future bucket a value. -/
theorem future_bucket_stays_future (rows : List ChartRow) (now d h : Int)
    (hfut : now < bucketStart d h)
    (hpastdata : ∀ r ∈ rows, r.ts ≤ now) :
    bucketCell rows now d h = none := by
  have hempty : ∀ r ∈ rows, inBucket r d h = false := by
    intro r hr
    cases hx : inBucket r d h with
    | false => rfl
    | true =>
      exact absurd (le_trans (bucketStart_le_of_inBucket r d h hx) (hpastdata r hr))
        (not_le.mpr hfut)
  unfold bucketCell
  rw [lastObs_of_not_inBucket rows d h hempty]
  rw [if_neg (by omega)]

/-- C4 (witness): the future-masking theorem applied at the one-row
history with a past observation, `now` = 720, bucket (0, 14). -/
theorem future_bucket_stays_future_witness :
    bucketCell [⟨"a", Status.Up, 90⟩] 720 0 14 = none :=
  future_bucket_stays_future [⟨"a", Status.Up, 90⟩] 720 0 14 (by decide) (by decide)

/-- C8 (counterexample): a configured target ("b") with no observation in
the history does not get an all-Missing/Future series — `generate_chart`
skips it entirely (`if resource_df.empty: continue`, monitor.py lines
146-148), and with an empty history no target gets a series at all
(`if not all_data: return`, line 124). -/
theorem c8_absent_target_skipped :
    chartGrid [⟨"a", Status.Up, 90⟩] "b" 600 = none ∧
    chartGrid ([] : List ChartRow) "b" 600 = none := ⟨by rfl, by rfl⟩

/-- C8 (amended): the chart for a target is omitted exactly when the
history is empty or contains no row for that target; otherwise a full
grid is produced (no error in either case). -/
theorem chartGrid_none_iff (data : List ChartRow) (url : String) (now : Int) :
    chartGrid data url now = none ↔ data = [] ∨ resourceRows data url = [] := by
  unfold chartGrid
  by_cases h1 : data = []
  · simp [h1]
  · by_cases h2 : resourceRows data url = [] <;> simp [h1, h2]

/-- C9: when an observation of the target lands in a bucket and is
chronologically strictly later than every other observation of the target
in that bucket, the bucket resolves to that observation's value
(last-observation-wins). -/
theorem bucket_last_observation_wins (data : List ChartRow) (url : String)
    (now d h : Int) (r : ChartRow)
    (hmem : r ∈ data) (hres : r.resource = url) (hb : inBucket r d h = true)
    (hlatest : ∀ x ∈ data, x.resource = url → inBucket x d h = true →
      x = r ∨ x.ts < r.ts) :
    bucketCell (resourceRows data url) now d h = some (statusVal r.status) := by
  unfold bucketCell
  rw [lastObs_latest (resourceRows data url) d h r ?_ hb ?_]
  · exact List.mem_filter.mpr ⟨hmem, by simp [resourceRows, hres]⟩
  · intro x hx hxb
    obtain ⟨hx1, hx2⟩ := List.mem_filter.mp hx
    exact hlatest x hx1 (by simpa using hx2) hxb

/-- C9 (witness): Down at minute 130 then Up at minute 170, both in bucket
(day 0, hour 2): the bucket resolves to Up (value 2). -/
theorem bucket_last_observation_wins_witness :
    bucketCell (resourceRows [⟨"a", Status.Down, 130⟩, ⟨"a", Status.Up, 170⟩] "a")
      600 0 2 = some (statusVal Status.Up) :=
  bucket_last_observation_wins [⟨"a", Status.Down, 130⟩, ⟨"a", Status.Up, 170⟩] "a"
    600 0 2 ⟨"a", Status.Up, 170⟩ (by decide) rfl (by decide) (by decide)

end Monitor

